import Mathlib

/-!
Verification of the DeerLab `fitregmodel.py` core against its specification.

The Python module is shallowly embedded over `ℚ` (idealized finite
floating-point arithmetic).  Numeric routines that live outside the
repository (the NNLS solvers, `dl.lsqcomponents`, `dl.regoperator`,
`dl.selregparam`, `dl.noiselevel`, `np.linalg.solve`, `np.linalg.pinv`,
`hccm`, `uqst`, `goodness_of_fit`) are passed in as explicit function
parameters, as are the transcendental scalar primitives `np.sqrt` and the
float power operator `**` (`FloatOps`).  Vectors are `List ℚ` and matrices
are `List (List ℚ)` in row-major order.
-/

/-- Python exceptions that the embedded code can raise. -/
inductive PyError
  | keyError (msg : String)
  | unboundLocalError (var : String)
  deriving Repr, DecidableEq

/-- The transcendental scalar primitives used by `fitregmodel.py`:
`np.sqrt` and the float power operator `x ** e` (`rpow x e`).  They are
external library routines, so they are kept abstract. -/
structure FloatOps where
  sqrt : ℚ → ℚ
  rpow : ℚ → ℚ → ℚ

/-- Dot product of two vectors (`np.dot` on equal-length 1-D arrays). -/
def dot (a b : List ℚ) : ℚ := (List.zipWith (· * ·) a b).sum

/-- Matrix–vector product `M @ x`. -/
def matVec (M : List (List ℚ)) (x : List ℚ) : List ℚ := M.map (fun row => dot row x)

/-- Matrix–matrix product `A @ B`. -/
def matMul (A B : List (List ℚ)) : List (List ℚ) :=
  A.map (fun row => B.transpose.map (fun col => dot row col))

/-- Elementwise vector difference `a - b`. -/
def vSub (a b : List ℚ) : List ℚ := List.zipWith (· - ·) a b

/-- Elementwise vector sum `a + b`. -/
def vAdd (a b : List ℚ) : List ℚ := List.zipWith (· + ·) a b

/-- Scalar–vector product `c * v`. -/
def sMul (c : ℚ) (v : List ℚ) : List ℚ := v.map (fun x => c * x)

/-- Scalar–matrix product `c * M`. -/
def matSc (c : ℚ) (M : List (List ℚ)) : List (List ℚ) := M.map (fun row => row.map (fun x => c * x))

/-- Row-wise scaling `c[:, np.newaxis] * M`: row `i` of `M` multiplied by `c i`. -/
def rowScale (c : List ℚ) (M : List (List ℚ)) : List (List ℚ) :=
  List.zipWith (fun ci row => row.map (fun x => ci * x)) c M

/-- Model of `np.trace`: sum of the diagonal entries of a matrix. -/
def traceM (M : List (List ℚ)) : ℚ :=
  (M.enum.map (fun p => p.2.getD p.1 0)).sum

/-- Model of `np.finfo(float).eps`, the double-precision machine epsilon `2⁻⁵²`. -/
def eps : ℚ := 1 / 2 ^ 52

/-- Function `_augment(res, J, regtype, alpha, L, P, eta)` from `fitregmodel.py`
(lines 179–209): augments the data residual and Jacobian with the
regularization-penalty contribution of the chosen functional.  An
unrecognized `regtype` matches none of the `if`/`elif` arms, so Python
raises `UnboundLocalError` for the unbound local `resreg` at the line
`resreg = alpha*resreg`. -/
def _augment (ops : FloatOps) (res : List ℚ) (J : List (List ℚ)) (regtype : String)
    (alpha : ℚ) (L : List (List ℚ)) (P : List ℚ) (eta : ℚ) :
    Except PyError (List ℚ × List (List ℚ)) :=
  if regtype = "tikhonov" then
    let resreg := matVec L P
    let Jreg := L
    .ok (res ++ sMul alpha resreg, J ++ matSc alpha Jreg)
  else if regtype = "tv" then
    let resreg := (matVec L P).map (fun z => ops.rpow (z ^ 2 + eps) (1 / 4))
    let Jreg := matSc (2 / 4)
      (rowScale ((matVec L P).map (fun z => ops.rpow (z ^ 2 + eps) (-3 / 4) * z)) L)
    .ok (res ++ sMul alpha resreg, J ++ matSc alpha Jreg)
  else if regtype = "huber" then
    let resreg := (matVec L P).map (fun z => ops.sqrt (ops.sqrt ((z / eta) ^ 2 + 1) - 1))
    let Jreg := matSc (1 / 2 / eta ^ 2)
      (rowScale ((matVec L P).map (fun z =>
        ops.rpow (ops.sqrt ((z / eta) ^ 2 + 1) - 1 + eps) (-1 / 2) *
          ops.rpow ((z / eta) ^ 2 + 1 + eps) (-1 / 2) * z)) L)
    .ok (res ++ sMul alpha resreg, J ++ matSc alpha Jreg)
  else
    .error (.unboundLocalError "resreg")

/-- Penalty residual as described by the spec (§4.1
RegularizationPenaltyModel): Tikhonov `L·P`; total variation
`((L·P)_i² + ε)^(1/4)`; pseudo-Huber `sqrt(sqrt(((L·P)_i/eta)² + 1) − 1)`. -/
def penaltyResidualSpec (ops : FloatOps) (regtype : String) (L : List (List ℚ))
    (P : List ℚ) (eta : ℚ) : List ℚ :=
  if regtype = "tikhonov" then matVec L P
  else if regtype = "tv" then (matVec L P).map (fun z => ops.rpow (z ^ 2 + eps) (1 / 4))
  else (matVec L P).map (fun z => ops.sqrt (ops.sqrt ((z / eta) ^ 2 + 1) - 1))

/-- Penalty Jacobian as described by the spec (§4.1): Tikhonov `L`; total
variation each row `i` of `L` scaled by `(1/2)·((L·P)_i² + ε)^(−3/4)·(L·P)_i`;
pseudo-Huber rows scaled by `(1/(2·eta²))·[outer]^(−1/2)·[inner]^(−1/2)·(L·P)_i`
with both terms offset by `ε`. -/
def penaltyJacobianSpec (ops : FloatOps) (regtype : String) (L : List (List ℚ))
    (P : List ℚ) (eta : ℚ) : List (List ℚ) :=
  if regtype = "tikhonov" then L
  else if regtype = "tv" then
    matSc (2 / 4)
      (rowScale ((matVec L P).map (fun z => ops.rpow (z ^ 2 + eps) (-3 / 4) * z)) L)
  else
    matSc (1 / 2 / eta ^ 2)
      (rowScale ((matVec L P).map (fun z =>
        ops.rpow (ops.sqrt ((z / eta) ^ 2 + 1) - 1 + eps) (-1 / 2) *
          ops.rpow ((z / eta) ^ 2 + 1 + eps) (-1 / 2) * z)) L)

/-- External numeric collaborators used by `_obir` (all outside the
repository, per spec §1/§6): the assembler `dl.lsqcomponents`, the three
NNLS back-ends, `np.linalg.solve`, `dl.noiselevel`, and the scalar float
primitives. -/
structure NumExt where
  ops : FloatOps
  lsqcomponents : List ℚ → List (List ℚ) → List (List ℚ) → ℚ → ℚ → String → ℚ →
    List (List ℚ) × List ℚ
  fnnls : List (List ℚ) → List ℚ → List ℚ
  nnlsbpp : List (List ℚ) → List ℚ → List ℚ → List ℚ
  cvxnnls : List (List ℚ) → List ℚ → List ℚ
  linsolve : List (List ℚ) → List ℚ → List ℚ
  noiselevel : List ℚ → ℚ

/-- Model of `np.std` with the default `ddof=0`:
`sqrt(mean((x - mean x)²))`, the square root taken by the external float
`sqrt` primitive. -/
def npstd (ops : FloatOps) (x : List ℚ) : ℚ :=
  let mu := x.sum / (x.length : ℚ)
  ops.sqrt ((x.map (fun t => (t - mu) ^ 2)).sum / (x.length : ℚ))

/-- The quantities of `_obir` that stay fixed across the outer loop:
the externals, the call arguments, the resolved noise target, and the
(constant) `stopDivergent` flag. -/
structure ObirCtx where
  ext : NumExt
  V : List ℚ
  K : List (List ℚ)
  L : List (List ℚ)
  regtype : String
  weights : ℚ
  huberparam : ℚ
  solver : String
  noiselevelaim : ℚ
  stopDivergent : Bool

/-- The mutable locals of the `_obir` outer loop. -/
structure ObirState where
  alpha : ℚ
  KtKreg : List (List ℚ)
  KtV : List ℚ
  subGrad : List ℚ
  Counter : ℕ
  Iteration : ℕ
  Pfit : List ℚ
  deriving Repr, DecidableEq

/-- Why the OBIR loop stopped (instrumentation tag; the Python code
returns only `Pfit`). -/
inductive StopReason
  | semiconvergence
  | divergenceHalt
  | iterationCap
  deriving Repr, DecidableEq

/-- Result of one execution of the `_obir` loop body. -/
inductive BodyRes
  | cont (s : ObirState)
  | stop (P : List ℚ) (reason : StopReason)
  | fail (e : PyError)
  deriving Repr, DecidableEq

/-- Result of running the `_obir` loop: a returned distribution, a raised
exception, or — since the Python `while` loop has no fuel — the state still in
flight when the modelling fuel ran out. -/
inductive LoopRes
  | ok (P : List ℚ) (reason : StopReason)
  | raised (e : PyError)
  | more (s : ObirState)
  deriving Repr, DecidableEq

/-- Constant `MaxOuterIter` from `_obir` (line 239). -/
def MaxOuterIter : ℕ := 5000

/-- One execution of the `while` body of `_obir` (lines 260–310):
snapshot `Pprev`, shift the right-hand side by the subgradient, dispatch
the NNLS solve, update the subgradient, then apply the warmup
(`Iteration == 1`) or refining iteration control. -/
def obirBody (c : ObirCtx) (s : ObirState) : BodyRes :=
  let Pprev := s.Pfit
  let KtVsg := vSub s.KtV s.subGrad
  let Psol : Except PyError (List ℚ) :=
    if c.solver = "fnnls" then .ok (c.ext.fnnls s.KtKreg KtVsg)
    else if c.solver = "nnlsbpp" then .ok (c.ext.nnlsbpp s.KtKreg KtVsg (c.ext.linsolve s.KtKreg KtVsg))
    else if c.solver = "cvx" then .ok (c.ext.cvxnnls s.KtKreg KtVsg)
    else .error (.keyError (c.solver ++ " is not a known non-negative least squares solver"))
  match Psol with
  | .error e => .fail e
  | .ok Pfit =>
    let subGrad := vAdd s.subGrad
      (sMul c.weights (matVec c.K.transpose (vSub (matVec c.K Pfit) c.V)))
    if s.Iteration = 1 then
      if c.noiselevelaim > npstd c.ext.ops (vSub (matVec c.K Pfit) c.V) then
        let alpha := s.alpha * 2 ^ s.Counter
        let lc := c.ext.lsqcomponents c.V c.K c.L alpha c.weights c.regtype c.huberparam
        .cont { s with alpha := alpha, Counter := s.Counter + 1,
                       KtKreg := lc.1, KtV := lc.2, subGrad := subGrad, Pfit := Pfit }
      else
        .cont { s with Iteration := s.Iteration + 1, subGrad := subGrad, Pfit := Pfit }
    else
      let diverged := npstd c.ext.ops (vSub (matVec c.K Pprev) c.V) <
        npstd c.ext.ops (vSub (matVec c.K Pfit) c.V)
      let semiconverged := c.noiselevelaim > npstd c.ext.ops (vSub (matVec c.K Pfit) c.V)
      if semiconverged then .stop Pfit .semiconvergence
      else if c.stopDivergent ∧ diverged then .stop Pprev .divergenceHalt
      else .cont { s with Iteration := s.Iteration + 1, subGrad := subGrad, Pfit := Pfit }

/-- The `while Iteration <= MaxOuterIter` loop of `_obir`, with explicit
fuel standing for the number of body executions still allowed; when the
loop condition fails the last computed `Pfit` is returned. -/
def obirRun (c : ObirCtx) : ℕ → ObirState → LoopRes
  | 0, s => .more s
  | n + 1, s =>
    if s.Iteration ≤ MaxOuterIter then
      match obirBody c s with
      | .cont s' => obirRun c n s'
      | .stop P r => .ok P r
      | .fail e => .raised e
    else .ok s.Pfit .iterationCap

/-- Function `_obir(V, K, L, regtype, alpha, weights, noiselevelaim, huberparam,
solver)` from `fitregmodel.py` (lines 213–312): resolves the noise
target, initializes the subgradient accumulator and counters, precomputes
the normal equations, and runs the Bregman outer loop. -/
def _obir (ext : NumExt) (V : List ℚ) (K L : List (List ℚ)) (regtype : String)
    (alpha weights noiselevelaim huberparam : ℚ) (solver : String) (fuel : ℕ) : LoopRes :=
  let nla := if noiselevelaim = -1 then ext.noiselevel V else noiselevelaim
  let nr := (L.headD []).length
  let lc := ext.lsqcomponents V K L alpha weights regtype huberparam
  let c : ObirCtx :=
    { ext := ext, V := V, K := K, L := L, regtype := regtype, weights := weights,
      huberparam := huberparam, solver := solver, noiselevelaim := nla,
      stopDivergent := false }
  obirRun c fuel
    { alpha := alpha, KtKreg := lc.1, KtV := lc.2, subGrad := List.replicate nr 0,
      Counter := 1, Iteration := 1, Pfit := List.replicate nr 0 }

/-- The SolverDispatcher of spec §4.3: route `(A, b)` to one of the three
NNLS back-ends, with the direct solve as starting guess for block
pivoting; an unknown selector is a fatal configuration error naming the
offending value. -/
def solverDispatch (ext : NumExt) (solver : String) (A : List (List ℚ)) (b : List ℚ) :
    Except PyError (List ℚ) :=
  if solver = "fnnls" then .ok (ext.fnnls A b)
  else if solver = "nnlsbpp" then .ok (ext.nnlsbpp A b (ext.linsolve A b))
  else if solver = "cvx" then .ok (ext.cvxnnls A b)
  else .error (.keyError (solver ++ " is not a known non-negative least squares solver"))

/-- The refining-phase body of the OBIR state machine as the spec words it
(§4.4, steps 1–5, `refining` branch): snapshot the previous `P`, shift the
right-hand side by the subgradient, solve the NNLS sub-problem via the
dispatcher, accumulate the subgradient, then stop with the current `P` on
semiconvergence, otherwise advance the iteration counter, reverting to the
snapshot and stopping only when the divergence-halt flag is enabled and
the residual deviation got worse. -/
def refiningStepSpec (c : ObirCtx) (s : ObirState) : BodyRes :=
  let Pprev := s.Pfit
  let KtVsg := vSub s.KtV s.subGrad
  match solverDispatch c.ext c.solver s.KtKreg KtVsg with
  | .error e => .fail e
  | .ok P =>
    let subGrad := vAdd s.subGrad
      (sMul c.weights (matVec c.K.transpose (vSub (matVec c.K P) c.V)))
    let diverged := npstd c.ext.ops (vSub (matVec c.K Pprev) c.V) <
      npstd c.ext.ops (vSub (matVec c.K P) c.V)
    let semiconverged := c.noiselevelaim > npstd c.ext.ops (vSub (matVec c.K P) c.V)
    if semiconverged then .stop P .semiconvergence
    else if c.stopDivergent ∧ diverged then .stop Pprev .divergenceHalt
    else .cont { s with Iteration := s.Iteration + 1, subGrad := subGrad, Pfit := P }

/-- The warmup-phase body of the OBIR state machine as the spec words it
(§4.4, `warmup` branch): after the solve and subgradient update, if the
residual standard deviation is already below the noise target, inflate
`alpha` to `alpha·2^counter`, increment the counter, rebuild the normal
equations via the assembler, and leave the iteration counter alone;
otherwise advance the iteration counter once (entering `refining`). -/
def warmupStepSpec (c : ObirCtx) (s : ObirState) : BodyRes :=
  let KtVsg := vSub s.KtV s.subGrad
  match solverDispatch c.ext c.solver s.KtKreg KtVsg with
  | .error e => .fail e
  | .ok P =>
    let subGrad := vAdd s.subGrad
      (sMul c.weights (matVec c.K.transpose (vSub (matVec c.K P) c.V)))
    if c.noiselevelaim > npstd c.ext.ops (vSub (matVec c.K P) c.V) then
      let alpha := s.alpha * 2 ^ s.Counter
      let lc := c.ext.lsqcomponents c.V c.K c.L alpha c.weights c.regtype c.huberparam
      .cont { s with alpha := alpha, Counter := s.Counter + 1,
                     KtKreg := lc.1, KtV := lc.2, subGrad := subGrad, Pfit := P }
    else
      .cont { s with Iteration := s.Iteration + 1, subGrad := subGrad, Pfit := P }

/-- Model of `np.trapz(y, x)`: trapezoidal integration of samples `y` over the
axis `x`. -/
def trapz (y x : List ℚ) : ℚ :=
  (List.zipWith (fun a b => (b.1 - a.1) * (b.2 + a.2) / 2) (x.zip y) (x.zip y).tail).sum

/-- The renormalization step of `fitregmodel` (lines 152–154):
`Pnorm = np.trapz(Pfit, r); Pfit = Pfit / Pnorm`, in exact arithmetic. -/
def renormStep (P r : List ℚ) : List ℚ :=
  P.map (fun x => x / trapz P r)

/-- IEEE-754 division of two finite doubles, keeping only finiteness
information: for finite operands the quotient is non-finite (`none`,
i.e. `±inf` or `nan`) exactly when the divisor is zero. -/
def pydiv (a b : ℚ) : Option ℚ :=
  if b = 0 then none else some (a / b)

/-- The same renormalization step (lines 152–154) under float-division
semantics: each entry of `Pfit` is divided by `np.trapz(Pfit, r)` with no
guard, `none` marking a non-finite result. -/
def renormStepFloat (P r : List ℚ) : List (Option ℚ) :=
  P.map (fun x => pydiv x (trapz P r))

/-- Subset indexing `V[subset]`: fancy indexing of a vector by a list of indices. -/
def select (v : List ℚ) (idx : List ℕ) : List ℚ :=
  idx.map (fun i => v.getD i 0)

/-- Trace of a matrix restricted to a dataset subset, as the claims and
spec word it: the sum of the diagonal entries whose index lies in the
subset. -/
def traceSubset (M : List (List ℚ)) (idx : List ℕ) : ℚ :=
  (idx.map (fun i => (M.getD i []).getD i 0)).sum

/-- External collaborators used by `fitregmodel` beyond `NumExt`:
`dl.regoperator`, `dl.selregparam`, `hccm`, `uqst`, `np.linalg.pinv`,
`goodness_of_fit`, and the rescaling of the confidence-interval query
performed after renormalization (`Puq.ci = lambda p: Puq_.ci(p)/Pnorm`).
`σ` is the opaque type of one goodness-of-fit record, `υ` the opaque type
of the uncertainty structure. -/
structure FitExt (σ υ : Type) extends NumExt where
  regoperator : List ℚ → ℕ → List (List ℚ)
  selregparam : List ℚ → List (List ℚ) → List ℚ → String → String → ℕ → ℚ → Bool → ℚ → ℚ
  hccm : List (List ℚ) → List ℚ → String → List (List ℚ)
  uqst : String → List ℚ → List (List ℚ) → List ℚ → List ℚ → υ
  ciRescale : υ → ℚ → υ
  pinv : List (List ℚ) → List (List ℚ)
  goodness_of_fit : List ℚ → List ℚ → ℚ → σ

/-- The values returned by `fitregmodel`: the fitted distribution, the
uncertainty structure (absent when `uqanalysis` is off, mirroring
`Puq = []`), and the goodness-of-fit statistics (present only with
`full_output`; a single record when exactly one dataset is present,
otherwise the list of per-dataset records). -/
structure FitOutput (σ υ : Type) where
  P : List ℚ
  Puq : Option υ
  stats : Option (σ ⊕ List σ)

/-- Resolution of the `alpha` argument (lines 106–107): a numeric value is
used as is; a string criterion is handed to the external
`dl.selregparam`. -/
def resolveAlpha (σ υ : Type) (ext : FitExt σ υ) (V : List ℚ) (K : List (List ℚ))
    (r : List ℚ) (regtype : String) (alpha : String ⊕ ℚ) (regorder : ℕ)
    (weights : ℚ) (nonnegativity : Bool) (huberparam : ℚ) : ℚ :=
  match alpha with
  | .inl crit => ext.selregparam V K r regtype crit regorder weights nonnegativity huberparam
  | .inr a => a

/-- Function `fitregmodel` (lines 92–175), modelled after `parse_multidatasets`:
`V`, `K` are the concatenated signal and kernel, `weights` the (scalar)
global weight and `subsets` the per-dataset index spans.  The result is
`none` when the OBIR loop outruns the modelling fuel, otherwise the raised
Python exception or the returned tuple. -/
def fitregmodel (σ υ : Type) (ext : FitExt σ υ) (V : List ℚ) (K : List (List ℚ))
    (r : List ℚ) (subsets : List (List ℕ)) (regtype : String) (alpha : String ⊕ ℚ)
    (regorder : ℕ) (solver : String) (weights huberparam : ℚ)
    (nonnegativity obir uqanalysis renormalize : Bool) (noiselevelaim : ℚ)
    ( full_output : Bool) (fuel : ℕ) : Option (Except PyError (FitOutput σ υ)) :=
  let L := ext.regoperator r regorder
  let problem := if obir then "obir" else if nonnegativity then "nnls" else "unconstrained"
  let alphaR := resolveAlpha σ υ ext V K r regtype alpha regorder weights nonnegativity huberparam
  let lc := ext.lsqcomponents V K L alphaR weights regtype huberparam
  let KtKreg := lc.1
  let KtV := lc.2
  let PfitE : Option (Except PyError (List ℚ)) :=
    if problem = "unconstrained" then some (.ok (ext.linsolve KtKreg KtV))
    else if problem = "obir" then
      match _obir ext.toNumExt V K L regtype alphaR weights noiselevelaim huberparam solver fuel with
      | .ok P _ => some (.ok P)
      | .raised e => some (.error e)
      | .more _ => none
    else
      if solver = "fnnls" then some (.ok (ext.fnnls KtKreg KtV))
      else if solver = "nnlsbpp" then some (.ok (ext.nnlsbpp KtKreg KtV (ext.linsolve KtKreg KtV)))
      else if solver = "cvx" then some (.ok (ext.cvxnnls KtKreg KtV))
      else some (.error (.keyError (solver ++ " is not a known non-negative least squares solver")))
  match PfitE with
  | none => none
  | some (.error e) => some (.error e)
  | some (.ok Pfit) =>
    let uqE : Except PyError (Option υ) :=
      if uqanalysis then
        let res := sMul weights (vSub V (matVec K Pfit))
        let Jres := matSc weights K
        match _augment ext.ops res Jres regtype alphaR L Pfit huberparam with
        | .error e => .error e
        | .ok rJ =>
          .ok (some (ext.uqst "covariance" Pfit (ext.hccm rJ.2 rJ.1 "HC1")
            (List.replicate r.length 0) []))
      else .ok none
    match uqE with
    | .error e => some (.error e)
    | .ok Puq =>
      let Pnorm := trapz Pfit r
      let Pfit2 := if renormalize then renormStep Pfit r else Pfit
      let Puq2 := if renormalize then Puq.map (fun u => ext.ciRescale u Pnorm) else Puq
      let Vfit := matVec K Pfit2
      let H := matMul K (matMul (ext.pinv KtKreg) K.transpose)
      let statsL := subsets.map (fun sub =>
        ext.goodness_of_fit (select V sub) (select Vfit sub) ((sub.length : ℚ) - traceM H))
      let statsO : σ ⊕ List σ := match statsL with
        | [g] => .inl g
        | gs => .inr gs
      some (.ok { P := Pfit2, Puq := Puq2,
                  stats := if full_output then some statsO else none })

/-- Returns `true` exactly when the loop result is still in flight (the loop has
not finished within the given number of body executions). -/
def LoopRes.unfinished : LoopRes → Bool
  | .more _ => true
  | _ => false

/-- Returns `true` exactly when the loop stopped through the revert-to-`Pprev`
divergence-halt branch. -/
def LoopRes.divergenceHalted : LoopRes → Bool
  | .ok _ .divergenceHalt => true
  | _ => false

/-- Returns `true` exactly when `fitregmodel` terminated and returned a value
(no exception raised). -/
def fitOk (σ υ : Type) : Option (Except PyError (FitOutput σ υ)) → Bool
  | some (.ok _) => true
  | _ => false

/-- The statistics component of a `fitregmodel` result, when the call
returned one. -/
def statsOf (σ υ : Type) : Option (Except PyError (FitOutput σ υ)) → Option (σ ⊕ List σ)
  | some (.ok o) => o.stats
  | _ => none

/-- A concrete instantiation of all external collaborators, used to run
the embedded code on explicit inputs: `sqrt`/`rpow` are placeholder float
primitives, the assembler returns `KtKreg = [[1 + alpha]]` and
`KtV = Kᵀ·V`, and every NNLS back-end returns its right-hand side (which
is the exact NNLS solution whenever that vector is the non-negative
unconstrained minimizer, e.g. for the zero right-hand side).  The
goodness-of-fit evaluator returns the `Ndof` it was handed, so runs expose
the degrees-of-freedom input. -/
def extQ : FitExt ℚ Unit where
  ops := { sqrt := fun x => x, rpow := fun x _ => x }
  lsqcomponents := fun V K _ a _ _ _ => ([[1 + a]], matVec K.transpose V)
  fnnls := fun _ b => b
  nnlsbpp := fun _ b _ => b
  cvxnnls := fun _ b => b
  linsolve := fun _ b => b
  noiselevel := fun _ => 1
  regoperator := fun _ _ => [[1]]
  selregparam := fun _ _ _ _ _ _ _ _ _ => 1
  hccm := fun _ _ _ => [[1]]
  uqst := fun _ _ _ _ _ => ()
  ciRescale := fun u _ => u
  pinv := fun m => m
  goodness_of_fit := fun _ _ n => n

/-- Concrete externals for the zero-signal OBIR run: placeholder float
primitives, an assembler returning `KtKreg = [[1 + alpha]]` and
`KtV = [0]` (the exact `Kᵀ·weights·V` for the zero signal), NNLS
back-ends that return their right-hand side (the exact non-negative
minimizer for a zero right-hand side), and noise level `1`. -/
def extC1 : NumExt where
  ops := { sqrt := fun x => x, rpow := fun x _ => x }
  lsqcomponents := fun _ _ _ a _ _ _ => ([[1 + a]], [0])
  fnnls := fun _ b => b
  nnlsbpp := fun _ b _ => b
  cvxnnls := fun _ b => b
  linsolve := fun _ b => b
  noiselevel := fun _ => 1

/-- The context that `_obir extC1 [0] [[1]] [[1]] "tikhonov" 1 1 1
(27/20) "cvx"` builds for its loop. -/
def cC1 : ObirCtx where
  ext := extC1
  V := [0]
  K := [[1]]
  L := [[1]]
  regtype := "tikhonov"
  weights := 1
  huberparam := 27 / 20
  solver := "cvx"
  noiselevelaim := 1
  stopDivergent := false

/-- On the zero signal with a positive noise target, every execution of
the `_obir` loop body in the context `cC1` is a warmup step: the residual
deviation is `0`, below the target, so `alpha` is inflated, the normal
equations are rebuilt, and `Iteration` stays at `1`. -/
lemma obir_zero_warmup_step (a : ℚ) (kk : List (List ℚ)) (cnt : ℕ) (pf : List ℚ) :
    obirBody cC1 { alpha := a, KtKreg := kk, KtV := [0], subGrad := [0],
                   Counter := cnt, Iteration := 1, Pfit := pf } =
      .cont { alpha := a * 2 ^ cnt, KtKreg := [[1 + a * 2 ^ cnt]], KtV := [0], subGrad := [0],
              Counter := cnt + 1, Iteration := 1, Pfit := [0] } := by
  have htr : List.transpose ([[1]] : List (List ℚ)) = [[1]] := rfl
  norm_num [obirBody, cC1, extC1, vSub, vAdd, sMul, matVec, dot, npstd, htr,
    List.sum_cons, List.sum_nil]

/-- On the zero signal with a positive noise target the `_obir` loop
never leaves warmup: after any number of body executions it is still
running. -/
lemma obir_zero_run (n : ℕ) : ∀ (a : ℚ) (kk : List (List ℚ)) (cnt : ℕ) (pf : List ℚ),
    (obirRun cC1 n { alpha := a, KtKreg := kk, KtV := [0], subGrad := [0],
                     Counter := cnt, Iteration := 1, Pfit := pf }).unfinished = true := by
  induction n with
  | zero => intros; rfl
  | succ n ih =>
    intro a kk cnt pf
    simp only [obirRun]
    rw [if_pos (by decide : (1 : ℕ) ≤ MaxOuterIter)]
    rw [obir_zero_warmup_step]
    exact ih _ _ _ _

/-- C1 (counterexample): on the signal `V = [0]` with noise target `1`
(and an assembler/solver behaving as the real ones do on a zero
right-hand side), the `_obir` outer loop is still running after 5001 body
executions — the warmup phase never advances the iteration counter, so
the outer loop is NOT bounded by the 5000-iteration cap on the iteration
counter. -/
theorem obir_outer_loop_unbounded_cex :
    (_obir extC1 [0] [[1]] [[1]] "tikhonov" 1 1 1 (27/20) "cvx" 5001).unfinished
      = true :=
  obir_zero_run 5001 1 ([[1 + 1]]) 1 [0]

/-- C7: renormalization is idempotent — if the fitted distribution already
has unit trapezoidal integral over `r`, the renormalization step of
`fitregmodel` (lines 152–154) leaves it unchanged. -/
theorem renorm_idempotent (P r : List ℚ) (h : trapz P r = 1) : renormStep P r = P := by
  simp [renormStep, h]

/-- Witness for `renorm_idempotent` at `P = [1/2, 1/2]`, `r = [0, 2]`. -/
theorem renorm_idempotent_witness :
    trapz [(1 : ℚ)/2, 1/2] [0, 2] = 1 ∧ renormStep [(1 : ℚ)/2, 1/2] [0, 2] = [(1 : ℚ)/2, 1/2] :=
  ⟨by norm_num [trapz], renorm_idempotent [(1 : ℚ)/2, 1/2] [0, 2] (by norm_num [trapz])⟩

/-- C10: when the fitted distribution integrates to zero over `r`, the
renormalization step (lines 152–154) divides every entry by zero — there
is no guard and no exception — so under float-division semantics every
entry of the returned distribution is non-finite. -/
theorem renorm_zero_integral_nonfinite (P r : List ℚ) (h : trapz P r = 0) :
    renormStepFloat P r = List.replicate P.length none := by
  simp [renormStepFloat, pydiv, h]

/-- Witness for `renorm_zero_integral_nonfinite` at the identically zero
distribution on `r = [0, 1]`. -/
theorem renorm_zero_integral_nonfinite_witness :
    trapz [(0 : ℚ), 0] [0, 1] = 0 ∧
      renormStepFloat [(0 : ℚ), 0] [0, 1] = List.replicate ([(0 : ℚ), 0]).length none :=
  ⟨by norm_num [trapz], renorm_zero_integral_nonfinite [(0 : ℚ), 0] [0, 1] (by norm_num [trapz])⟩

/-- C1 (amended): when the iteration counter has exceeded `MaxOuterIter`,
the `while` condition of `_obir` fails and the loop returns the last
computed `Pfit`, with no exception and no failure signal beyond the
instrumentation tag. -/
theorem obir_cap_returns_last (c : ObirCtx) (s : ObirState) (n : ℕ)
    (h : MaxOuterIter < s.Iteration) :
    obirRun c (n + 1) s = .ok s.Pfit .iterationCap := by
  simp only [obirRun, if_neg (not_le.mpr h)]

/-- Witness for `obir_cap_returns_last` at an explicit state with
`Iteration = 5001`. -/
theorem obir_cap_returns_last_witness :
    MaxOuterIter < (5001 : ℕ) ∧
      obirRun cC1 1 { alpha := 1, KtKreg := [[2]], KtV := [0], subGrad := [0],
                      Counter := 1, Iteration := 5001, Pfit := [0] } = .ok [0] .iterationCap :=
  ⟨by decide, obir_cap_returns_last cC1
    { alpha := 1, KtKreg := [[2]], KtV := [0], subGrad := [0],
      Counter := 1, Iteration := 5001, Pfit := [0] } 0 (by decide)⟩

/-- C5 (amended): an unrecognized solver tag is reported, with the
offending value named, on the constrained path of `fitregmodel`
(lines 120–129): with `nonnegativity` set and `obir` unset the call
raises `KeyError` naming the solver. -/
theorem fitregmodel_unknown_solver_keyerror (σ υ : Type) (ext : FitExt σ υ)
    (V : List ℚ) (K : List (List ℚ)) (r : List ℚ) (subsets : List (List ℕ))
    (regtype : String) (alpha : String ⊕ ℚ) (regorder : ℕ) (solver : String)
    (weights huberparam : ℚ) (uqanalysis renormalize : Bool) (noiselevelaim : ℚ)
    (fo : Bool) (fuel : ℕ)
    (h1 : solver ≠ "fnnls") (h2 : solver ≠ "nnlsbpp") (h3 : solver ≠ "cvx") :
    fitregmodel σ υ ext V K r subsets regtype alpha regorder solver weights huberparam
      true false uqanalysis renormalize noiselevelaim fo fuel =
      some (.error (.keyError (solver ++ " is not a known non-negative least squares solver"))) := by
  simp [fitregmodel, h1, h2, h3]

/-- Witness for `fitregmodel_unknown_solver_keyerror` with the unknown
solver tag `"bogus"`. -/
theorem fitregmodel_unknown_solver_keyerror_witness :
    ("bogus" ≠ "fnnls" ∧ "bogus" ≠ "nnlsbpp" ∧ "bogus" ≠ "cvx") ∧
      fitregmodel ℚ Unit extQ [1] [[1]] [1] [[0]] "tikhonov" (.inr 1) 2 "bogus" 1 (27/20)
        true false false false (-1) false 0 =
        some (.error (.keyError ("bogus" ++ " is not a known non-negative least squares solver"))) :=
  ⟨⟨by decide, by decide, by decide⟩,
    fitregmodel_unknown_solver_keyerror ℚ Unit extQ [1] [[1]] [1] [[0]] "tikhonov" (.inr 1) 2
      "bogus" 1 (27/20) false false (-1) false 0 (by decide) (by decide) (by decide)⟩

/-- C5 (counterexample): a call with the unrecognized solver tag
`"bogus"` on the unconstrained path (`nonnegativity = False`,
`obir = False`) performs the whole fit and returns successfully — no
configuration error is ever raised, refuting "for every call with an
unrecognized solver tag the fit fails fast". -/
theorem fitregmodel_unknown_solver_no_error_cex :
    fitOk ℚ Unit (fitregmodel ℚ Unit extQ [1] [[1]] [1] [[0]] "tikhonov" (.inr 1) 2 "bogus"
      1 (27/20) false false false false (-1) false 0) = true := by
  decide

/-- C4: for each recognized penalty type and any positive `alpha`,
`_augment` produces exactly the penalty residual and Jacobian of spec
§4.1 — Tikhonov `(L·P, L)`, total variation
`(((L·P)_i² + ε)^(1/4), (1/2)·((L·P)_i² + ε)^(−3/4)·(L·P)_i · L_i)`,
pseudo-Huber `(sqrt(sqrt(((L·P)_i/eta)² + 1) − 1), …)` with the ε offsets —
scaled by `alpha` and stacked below the data residual and Jacobian, and
the augmented residual has `res.length + L.length` rows. -/
theorem augment_matches_penalty_spec (ops : FloatOps) (res : List ℚ) (J : List (List ℚ))
    (regtype : String) (alpha : ℚ) (L : List (List ℚ)) (P : List ℚ) (eta : ℚ)
    (halpha : 0 < alpha)
    (hreg : regtype = "tikhonov" ∨ regtype = "tv" ∨ regtype = "huber") :
    _augment ops res J regtype alpha L P eta =
      .ok (res ++ sMul alpha (penaltyResidualSpec ops regtype L P eta),
           J ++ matSc alpha (penaltyJacobianSpec ops regtype L P eta)) ∧
    (res ++ sMul alpha (penaltyResidualSpec ops regtype L P eta)).length =
      res.length + L.length := by
  rcases hreg with rfl | rfl | rfl <;>
    exact ⟨rfl, by simp [penaltyResidualSpec, sMul, matVec, List.length_append, List.length_map]⟩

/-- Witness for `augment_matches_penalty_spec` at the total-variation
penalty with `alpha = 1` on a concrete 1×1 operator. -/
theorem augment_matches_penalty_spec_witness :
    (0 < (1 : ℚ) ∧ (("tv" : String) = "tikhonov" ∨ ("tv" : String) = "tv" ∨ ("tv" : String) = "huber")) ∧
      (_augment ⟨fun x => x, fun x _ => x⟩ [5] [[7]] "tv" 1 [[1]] [3] 1 =
        .ok ([5] ++ sMul 1 (penaltyResidualSpec ⟨fun x => x, fun x _ => x⟩ "tv" [[1]] [3] 1),
             [[7]] ++ matSc 1 (penaltyJacobianSpec ⟨fun x => x, fun x _ => x⟩ "tv" [[1]] [3] 1)) ∧
        ([5] ++ sMul 1 (penaltyResidualSpec ⟨fun x => x, fun x _ => x⟩ "tv" [[1]] [3] 1)).length =
          [(5 : ℚ)].length + [[(1 : ℚ)]].length) :=
  ⟨⟨by norm_num, Or.inr (Or.inl rfl)⟩,
    augment_matches_penalty_spec ⟨fun x => x, fun x _ => x⟩ [5] [[7]] "tv" 1 [[1]] [3] 1
      (by norm_num) (Or.inr (Or.inl rfl))⟩

/-- C2: in every refining-phase execution of the `_obir` loop body
(`Iteration ≠ 1`) the code performs exactly the refining step of spec §4.4:
shift `KtVsg = KtV − subGrad`, solve the non-negative sub-problem
for `KtVsg`, accumulate `subGrad += weights·Kᵗ·(K·P − V)`, stop with the
current `P` exactly when the noise target exceeds `std(K·P − V)`, and
otherwise advance the iteration counter, reverting to `Pprev` and
stopping only when the divergence-halt flag is enabled and
`std(K·Pprev − V) < std(K·P − V)`. -/
theorem obir_refining_matches_spec (c : ObirCtx) (s : ObirState) (h : s.Iteration ≠ 1) :
    obirBody c s = refiningStepSpec c s := by
  simp only [obirBody, refiningStepSpec, solverDispatch, if_neg h]

/-- Witness for `obir_refining_matches_spec` at a concrete refining-phase
state (`Iteration = 2`). -/
theorem obir_refining_matches_spec_witness :
    ({ alpha := 1, KtKreg := [[2]], KtV := [0], subGrad := [0],
       Counter := 1, Iteration := 2, Pfit := [0] } : ObirState).Iteration ≠ 1 ∧
      obirBody cC1 { alpha := 1, KtKreg := [[2]], KtV := [0], subGrad := [0],
                     Counter := 1, Iteration := 2, Pfit := [0] } =
        refiningStepSpec cC1 { alpha := 1, KtKreg := [[2]], KtV := [0], subGrad := [0],
                               Counter := 1, Iteration := 2, Pfit := [0] } :=
  ⟨by decide,
    obir_refining_matches_spec cC1
      { alpha := 1, KtKreg := [[2]], KtV := [0], subGrad := [0],
        Counter := 1, Iteration := 2, Pfit := [0] } (by decide)⟩

/-- C3: in every warmup-phase execution of the `_obir` loop body
(`Iteration = 1`) the code performs exactly the warmup step of spec §4.4:
when the residual standard deviation is already below the noise target,
`alpha` is inflated to `alpha·2^Counter`, the counter is incremented, the
normal equations are rebuilt with the new `alpha`, and the iteration
counter stays put; otherwise the iteration counter advances once. -/
theorem obir_warmup_matches_spec (c : ObirCtx) (s : ObirState) (h : s.Iteration = 1) :
    obirBody c s = warmupStepSpec c s := by
  simp only [obirBody, warmupStepSpec, solverDispatch, h, if_true, ite_true]

/-- Witness for `obir_warmup_matches_spec` at a concrete warmup-phase
state (`Iteration = 1`). -/
theorem obir_warmup_matches_spec_witness :
    ({ alpha := 1, KtKreg := [[2]], KtV := [0], subGrad := [0],
       Counter := 1, Iteration := 1, Pfit := [0] } : ObirState).Iteration = 1 ∧
      obirBody cC1 { alpha := 1, KtKreg := [[2]], KtV := [0], subGrad := [0],
                     Counter := 1, Iteration := 1, Pfit := [0] } =
        warmupStepSpec cC1 { alpha := 1, KtKreg := [[2]], KtV := [0], subGrad := [0],
                             Counter := 1, Iteration := 1, Pfit := [0] } :=
  ⟨by decide,
    obir_warmup_matches_spec cC1
      { alpha := 1, KtKreg := [[2]], KtV := [0], subGrad := [0],
        Counter := 1, Iteration := 1, Pfit := [0] } (by decide)⟩

/-- With the divergence-halt flag cleared, no execution of the `_obir`
loop body can take the revert-to-`Pprev` stop branch. -/
lemma obirBody_no_divergence_halt (c : ObirCtx) (s : ObirState)
    (h : c.stopDivergent = false) (P : List ℚ) :
    obirBody c s ≠ .stop P .divergenceHalt := by
  simp only [obirBody, h]
  split
  · simp
  · split
    · split <;> simp
    · split
      · simp
      · split
        · rename_i hcond
          simp at hcond
        · simp

/-- With the divergence-halt flag cleared, no run of the `_obir` loop
ever stops through the divergence-halt branch. -/
lemma obirRun_no_divergence_halt (c : ObirCtx) (h : c.stopDivergent = false) :
    ∀ (n : ℕ) (s : ObirState), (obirRun c n s).divergenceHalted = false := by
  intro n
  induction n with
  | zero => intro s; rfl
  | succ n ih =>
    intro s
    simp only [obirRun]
    split
    · rcases hb : obirBody c s with s' | ⟨P, r⟩ | e
      · simp only [hb]; exact ih s'
      · cases r with
        | semiconvergence => simp only [hb]; rfl
        | divergenceHalt => exact absurd hb (obirBody_no_divergence_halt c s h P)
        | iterationCap => simp only [hb]; rfl
      · simp only [hb]; rfl
    · rfl

/-- C9: the returned distribution of `_obir` is never the reverted
previous iterate — `stopDivergent` is the internal constant `False` set
on line 240, it is not a parameter of `_obir` (nor of `fitregmodel`), so
the `if stopDivergent and diverged` revert-and-stop branch (lines
308–310) is unreachable in every run, for every fuel and every choice of
externals and arguments. -/
theorem obir_never_divergence_halted (ext : NumExt) (V : List ℚ) (K L : List (List ℚ))
    (regtype : String) (alpha weights noiselevelaim huberparam : ℚ) (solver : String)
    (fuel : ℕ) :
    (_obir ext V K L regtype alpha weights noiselevelaim huberparam solver fuel).divergenceHalted
      = false :=
  obirRun_no_divergence_halt _ rfl fuel _

/-- C6 (amended): on the constrained `cvx` path, for every dataset subset
the effective-degrees-of-freedom estimate handed to the external
goodness-of-fit evaluator is `(subset length) − trace(K·pinv(KtKreg)·Kᵗ)`
with the trace of the FULL hat matrix (not restricted to the subset),
together with the fitted signal `K·P` on that subset; and when exactly
one dataset is present the statistics collapse to a single record rather
than a one-element sequence. -/
theorem fitregmodel_ndof_uses_full_trace (σ υ : Type) (ext : FitExt σ υ) (V : List ℚ)
    (K : List (List ℚ)) (r : List ℚ) (subsets : List (List ℕ)) (a : ℚ) (regorder : ℕ)
    (weights huberparam : ℚ) (uqanalysis renormalize : Bool) (noiselevelaim : ℚ) (fuel : ℕ) :
    statsOf σ υ (fitregmodel σ υ ext V K r subsets "tikhonov" (.inr a) regorder "cvx"
        weights huberparam true false uqanalysis renormalize noiselevelaim true fuel) =
      some (
        let L := ext.regoperator r regorder
        let lc := ext.lsqcomponents V K L a weights "tikhonov" huberparam
        let Pfit := ext.cvxnnls lc.1 lc.2
        let Pfit2 := if renormalize then renormStep Pfit r else Pfit
        let Vfit := matVec K Pfit2
        let H := matMul K (matMul (ext.pinv lc.1) K.transpose)
        match subsets.map (fun sub =>
            ext.goodness_of_fit (select V sub) (select Vfit sub)
              ((sub.length : ℚ) - traceM H)) with
        | [g] => Sum.inl g
        | gs => Sum.inr gs) := by
  cases uqanalysis <;> cases renormalize <;> rfl

/-- C6 (counterexample): with two datasets `subsets = [[0], [1]]`,
`K = [[1],[2]]` and externals under which the hat matrix is
`H = [[2,4],[4,8]]`, the `Ndof` handed to the evaluator for the first
subset (exposed by a goodness-of-fit stub that returns its `Ndof`
argument) is `1 − trace(H) = −9`, whereas the subset-restricted
trace would give `1 − H₀₀ = −1`. -/
theorem fitregmodel_ndof_restricted_trace_cex :
    statsOf ℚ Unit (fitregmodel ℚ Unit extQ [1, 1] [[1], [2]] [3] [[0], [1]] "tikhonov"
        (.inr 1) 2 "cvx" 1 (27/20) true false false false (-1) true 0) =
      some (.inr [-9, -9]) ∧
    (1 : ℚ) - traceSubset (matMul [[1], [2]] (matMul (extQ.pinv [[2]]) [[1, 2]])) [0] = -1 ∧
    (-9 : ℚ) ≠ -1 := by
  have h1 : List.transpose ([[1], [2]] : List (List ℚ)) = [[1, 2]] := rfl
  have h2 : List.transpose ([[1, 2]] : List (List ℚ)) = [[1], [2]] := rfl
  have h3 : List.transpose ([[2, 4]] : List (List ℚ)) = [[2], [4]] := rfl
  refine ⟨?_, ?_, by norm_num⟩
  · simp +decide only [fitregmodel, statsOf, extQ, resolveAlpha, renormStep, trapz, select,
      matVec, matMul, dot, traceM, vSub, vAdd, sMul, matSc, h1, h2, List.getD,
      List.enum, List.enumFrom, List.zipWith, List.map, List.sum_cons, List.sum_nil]
    norm_num
  · norm_num [traceSubset, matMul, dot, extQ, h1, h2, h3, List.sum_cons, List.sum_nil, List.getD]

/-- C8: with renormalization and full output enabled (here on the
constrained `cvx` path), the goodness-of-fit statistics are computed from
the renormalized distribution — the fitted signal handed to the evaluator
is `K·(P/scale)` with `scale = ∫P dr`, for `P` the solver output of the
penalized least-squares problem, not `K·P` itself. -/
theorem fitregmodel_stats_use_renormalized (σ υ : Type) (ext : FitExt σ υ) (V : List ℚ)
    (K : List (List ℚ)) (r : List ℚ) (subsets : List (List ℕ)) (a : ℚ) (regorder : ℕ)
    (weights huberparam : ℚ) (uqanalysis : Bool) (noiselevelaim : ℚ) (fuel : ℕ) :
    statsOf σ υ (fitregmodel σ υ ext V K r subsets "tikhonov" (.inr a) regorder "cvx"
        weights huberparam true false uqanalysis true noiselevelaim true fuel) =
      some (
        let L := ext.regoperator r regorder
        let lc := ext.lsqcomponents V K L a weights "tikhonov" huberparam
        let P := ext.cvxnnls lc.1 lc.2
        let scale := trapz P r
        let Vfit := matVec K (P.map (fun x => x / scale))
        let H := matMul K (matMul (ext.pinv lc.1) K.transpose)
        match subsets.map (fun sub =>
            ext.goodness_of_fit (select V sub) (select Vfit sub)
              ((sub.length : ℚ) - traceM H)) with
        | [g] => Sum.inl g
        | gs => Sum.inr gs) := by
  cases uqanalysis <;> rfl
